import Mathlib

/-!
Shallow embedding of the mxtl slab allocator
(src/system/ulib/mxtl/include/mxtl/slab_allocator.h).

A cell is identified by the slab it lives in (slabs are numbered in order
of creation) and its index inside that slab's `allocs_` array.  The number
of cells a slab holds (`SlabAllocationCount` in the source, a compile-time
constant there) is a parameter `c` of every operation.  The success of the
host allocator call `aligned_alloc` in `Allocate` is abstracted as a
boolean `hostOk` passed to the operation.
-/

namespace SlabAlloc

/-- A cell address: which slab, and which `allocs_` slot within it. -/
structure Cell where
  slabId : Nat
  idx : Nat
deriving DecidableEq, Repr

/-- A slab header: its creation number and its `alloc_count_` bump index
(`next_unused` in the spec's words). -/
structure Slab where
  id : Nat
  alloc_count : Nat
deriving DecidableEq, Repr

/-- The state of `internal::SlabAllocator`: the free list (head first, as
`SinglyLinkedList` push_front / pop_front act on the head), the slab list
(head = most recently pushed = active slab), `max_slabs_`, `slab_count_`,
the debug counter `free_list_size_`, and the id the next created slab
will receive. -/
structure PoolState where
  free_list : List Cell
  slab_list : List Slab
  max_slabs : Nat
  slab_count : Nat
  free_list_size : Nat
  next_slab_id : Nat
deriving DecidableEq, Repr

/-- Embeds `Slab::Allocate` (slab_allocator.h:478-481):
`(alloc_count_ >= SlabAllocationCount) ? nullptr : allocs_[alloc_count_++].data`. -/
def Slab.Allocate (c : Nat) (s : Slab) : Option Cell × Slab :=
  if s.alloc_count ≥ c then (none, s)
  else (some ⟨s.id, s.alloc_count⟩, { s with alloc_count := s.alloc_count + 1 })

/-- The new-slab step of `internal::SlabAllocator::Allocate`
(slab_allocator.h:432-445): if `slab_count_ < max_slabs_`, call
`aligned_alloc` (success abstracted as `hostOk`); on success placement-new
a slab, increment `slab_count_`, push it on the front of the slab list and
return `slab->Allocate()`; otherwise fall through to `return nullptr`. -/
def tryNewSlab (c : Nat) (hostOk : Bool) (st : PoolState) : Option Cell × PoolState :=
  if st.slab_count < st.max_slabs then
    if hostOk then
      let slab : Slab := { id := st.next_slab_id, alloc_count := 0 }
      let res := Slab.Allocate c slab
      (res.1, { st with slab_list := res.2 :: st.slab_list,
                        slab_count := st.slab_count + 1,
                        next_slab_id := st.next_slab_id + 1 })
    else (none, st)
  else (none, st)

/-- Embeds `internal::SlabAllocator::Allocate` (slab_allocator.h:414-446):
free list pop first, then bump from the active (front) slab, then try to
allocate a new slab, else null. -/
def Allocate (c : Nat) (hostOk : Bool) (st : PoolState) : Option Cell × PoolState :=
  match st.free_list with
  | cell :: rest =>
      (some cell, { st with free_list := rest,
                            free_list_size := st.free_list_size - 1 })
  | [] =>
      match st.slab_list with
      | active :: rest =>
          match Slab.Allocate c active with
          | (some cell, active2) =>
              (some cell, { st with slab_list := active2 :: rest })
          | (none, _) => tryNewSlab c hostOk st
      | [] => tryNewSlab c hostOk st

/-- Embeds `internal::SlabAllocator::ReturnToFreeList` (slab_allocator.h:448-455):
placement-new a `FreeListEntry` in the cell, bump the debug counter, push
at the head of the free list. -/
def ReturnToFreeList (st : PoolState) (cell : Cell) : PoolState :=
  { st with free_list := cell :: st.free_list,
            free_list_size := st.free_list_size + 1 }

/-- A freshly zero-initialised pool with the given `max_slabs_`
(member initialisers at slab_allocator.h:457-470). -/
def mkPool (max_slabs : Nat) : PoolState :=
  { free_list := [], slab_list := [], max_slabs := max_slabs,
    slab_count := 0, free_list_size := 0, next_slab_id := 0 }

/-- The constructor `internal::SlabAllocator::SlabAllocator`
(slab_allocator.h:326-338): if `alloc_initial`, call `Allocate()` and, when
it returns non-null, `ReturnToFreeList` the cell. -/
def init (c : Nat) (hostOk : Bool) (max_slabs : Nat) (alloc_initial : Bool) : PoolState :=
  let st := mkPool max_slabs
  if alloc_initial then
    match Allocate c hostOk st with
    | (some cell, st2) => ReturnToFreeList st2 cell
    | (none, st2) => st2
  else st

/-- Embeds `internal::SlabAllocator::New` (slab_allocator.h:361-374) at the level
of cells: `Allocate`, and null iff `Allocate` was null.  (Object
construction and origin setting are modelled separately below.) -/
def New (c : Nat) (hostOk : Bool) (st : PoolState) : Option Cell × PoolState :=
  match Allocate c hostOk st with
  | (none, st2) => (none, st2)
  | (some cell, st2) => (some cell, st2)

/-- Step 3 of the acquire path as worded in the spec (§4.4): "if
`slab_count < max_slabs`, request a region from the system allocator; on
success, initialize the slab header, push it onto the front of the slab
list (making it the active slab), increment `slab_count`, and return the
first carved cell.  On allocation failure, fall through." -/
def acquireSpecStep3 (hostOk : Bool) (st : PoolState) : Option Cell × PoolState :=
  if st.slab_count < st.max_slabs ∧ hostOk = true then
    (some ⟨st.next_slab_id, 0⟩,
     { st with slab_list := { id := st.next_slab_id, alloc_count := 1 } :: st.slab_list,
               slab_count := st.slab_count + 1,
               next_slab_id := st.next_slab_id + 1 })
  else (none, st)

/-- The acquire path as worded in the spec (§4.4 steps 1-4), written from
the spec's sentences rather than from the code, to be compared with
`Allocate`: (1) pop the free list head if non-empty; (2) else carve from
the front (active) slab if it is not full; (3) else a new slab, if the
ceiling allows; (4) else null. -/
def acquireSpec (c : Nat) (hostOk : Bool) (st : PoolState) : Option Cell × PoolState :=
  match st.free_list with
  | cell :: rest =>
      (some cell, { st with free_list := rest,
                            free_list_size := st.free_list_size - 1 })
  | [] =>
      match st.slab_list with
      | active :: rest =>
          if active.alloc_count < c then
            (some ⟨active.id, active.alloc_count⟩,
             { st with slab_list :=
                 { active with alloc_count := active.alloc_count + 1 } :: rest })
          else acquireSpecStep3 hostOk st
      | [] => acquireSpecStep3 hostOk st


end SlabAlloc

namespace SlabAlloc

/-- Helper: `Allocate` coincides with the spec-worded acquire path
(`0 < c` is the source's static_assert `SlabAllocationCount > 0`). -/
theorem Allocate_eq_acquireSpec (c : Nat) (b : Bool) (st : PoolState) (hc : 0 < c) :
    Allocate c b st = acquireSpec c b st := by
  obtain ⟨fl, sl, ms, sc, fls, nid⟩ := st
  cases fl with
  | cons cell rest => rfl
  | nil =>
    cases sl with
    | nil =>
      simp only [Allocate, acquireSpec, tryNewSlab, acquireSpecStep3, Slab.Allocate]
      rcases b with _ | _ <;>
        by_cases hsc : sc < ms <;>
          simp [hsc, Nat.not_le.mpr hc]
    | cons active rest =>
      by_cases hfull : active.alloc_count < c
      · simp [Allocate, acquireSpec, Slab.Allocate, Nat.not_le.mpr hfull, hfull]
      · have hge : c ≤ active.alloc_count := Nat.not_lt.mp hfull
        rcases b with _ | _ <;>
          by_cases hsc : sc < ms <;>
            simp [Allocate, acquireSpec, Slab.Allocate, tryNewSlab, acquireSpecStep3,
                  hge, hfull, hsc, Nat.not_le.mpr hc]

/-- C1: for every pool state, `Allocate` proceeds in the fixed order of the
claim — free-list pop, then active-slab bump, then new slab (pushed on the
front of the slab list, `slab_count` incremented, first carved cell
returned), then null (also on host-allocator failure) — and returns the
first cell so obtained; `acquireSpec` is that order transcribed from the
spec's words.  The hypothesis `0 < c` is the static_assert
`SlabAllocationCount > 0` of the source. -/
theorem claim_C1_acquire_order (c : Nat) (b : Bool) (st : PoolState) (hc : 0 < c) :
    Allocate c b st = acquireSpec c b st :=
  Allocate_eq_acquireSpec c b st hc

/-- C1 witness at a concrete input. -/
theorem claim_C1_witness :
    Allocate 1 true (mkPool 1) = acquireSpec 1 true (mkPool 1) :=
  claim_C1_acquire_order 1 true (mkPool 1) (by decide)

/-- Helper: when `Allocate` returns null, the state is unchanged (with
`0 < c`, i.e. the source's static_assert `SlabAllocationCount > 0`). -/
theorem Allocate_none (c : Nat) (b : Bool) (st : PoolState) (hc : 0 < c)
    (hfail : (Allocate c b st).1 = none) : Allocate c b st = (none, st) := by
  obtain ⟨fl, sl, ms, sc, fls, nid⟩ := st
  cases fl with
  | cons cell rest => simp [Allocate] at hfail
  | nil =>
    cases sl with
    | nil =>
      rcases b with _ | _ <;> by_cases hsc : sc < ms <;>
        simp_all [Allocate, tryNewSlab, Slab.Allocate, Nat.not_le.mpr hc]
    | cons active rest =>
      by_cases hfull : active.alloc_count < c
      · simp_all [Allocate, Slab.Allocate, Nat.not_le.mpr hfull]
      · rcases b with _ | _ <;> by_cases hsc : sc < ms <;>
          simp_all [Allocate, tryNewSlab, Slab.Allocate, Nat.not_le.mpr hc,
                    Nat.not_lt.mp hfull]

/-- Iterated acquisition: the pool state after `n` `Allocate` calls (each
with host-allocator outcome `b`) starting from `st`. -/
def iterFrom (c : Nat) (b : Bool) (st : PoolState) : Nat → PoolState
  | 0 => st
  | n + 1 => (Allocate c b (iterFrom c b st n)).2

/-- Helper: a pool with `max_slabs = 0` rejects every `Allocate` and stays
put. -/
theorem Allocate_mkPool_zero (c : Nat) (b : Bool) :
    Allocate c b (mkPool 0) = (none, mkPool 0) := by
  simp [Allocate, mkPool, tryNewSlab]

/-- Helper: iterating `Allocate` on a `max_slabs = 0` pool never moves. -/
theorem iterFrom_mkPool_zero (c : Nat) (b : Bool) :
    ∀ n, iterFrom c b (mkPool 0) n = mkPool 0 := by
  intro n
  induction n with
  | zero => rfl
  | succ n ih => simp [iterFrom, ih, Allocate_mkPool_zero]

/-- C8: when acquisition fails, `New` returns null and the pool state is
unchanged — free list, slab list, `slab_count` and every slab's
`alloc_count` are exactly as before, and no object is constructed.  The
hypothesis `0 < c` is the source's static_assert
`SlabAllocationCount > 0`. -/
theorem claim_C8_failed_acquire_unchanged (c : Nat) (b : Bool) (st : PoolState)
    (hc : 0 < c) (hfail : (Allocate c b st).1 = none) :
    (Allocate c b st).2 = st ∧ New c b st = (none, st) := by
  have h := Allocate_none c b st hc hfail
  exact ⟨by rw [h], by simp [New, h]⟩

/-- C8 witness: a pool with `max_slabs = 0` fails its first acquire. -/
theorem claim_C8_witness :
    (Allocate 1 true (mkPool 0)).2 = mkPool 0 ∧ New 1 true (mkPool 0) = (none, mkPool 0) :=
  claim_C8_failed_acquire_unchanged 1 true (mkPool 0) (by decide) (by decide)

/-- C9: with `max_slabs = 0` and no pre-allocation, the constructor
succeeds and yields the empty pool, every `New` call returns null, and
`slab_count` stays 0 forever (after any number of acquire attempts). -/
theorem claim_C9_zero_max_slabs (c : Nat) (b : Bool) (n : Nat) :
    init c b 0 false = mkPool 0 ∧
    New c b (iterFrom c b (mkPool 0) n) = (none, mkPool 0) ∧
    (iterFrom c b (mkPool 0) n).slab_count = 0 := by
  refine ⟨rfl, ?_, ?_⟩
  · rw [iterFrom_mkPool_zero]
    simp [New, Allocate_mkPool_zero]
  · rw [iterFrom_mkPool_zero]
    rfl

/-- C10: the constructor with `pre_allocate = true` never fails: on host
allocator failure, or with `max_slabs = 0`, the pre-allocation is silently
skipped and the pool comes up identical to a fresh empty pool
(empty free list, `slab_count = 0`); a later `New` with a working host
allocator still creates the first slab and succeeds. -/
theorem claim_C10_prealloc_never_fails (c m : Nat) (b : Bool) (hc : 0 < c) :
    init c false m true = mkPool m ∧
    init c b 0 true = mkPool 0 ∧
    (0 < m → (New c true (mkPool m)).1 = some ⟨0, 0⟩ ∧
             (New c true (mkPool m)).2.slab_count = 1) := by
  refine ⟨?_, ?_, ?_⟩
  · rcases Nat.eq_zero_or_pos m with hm | hm
    · subst hm; simp [init, Allocate_mkPool_zero]
    · simp [init, Allocate, mkPool, tryNewSlab, hm]
  · simp [init, Allocate_mkPool_zero]
  · intro hm
    simp [New, Allocate, mkPool, tryNewSlab, hm, Slab.Allocate, Nat.not_le.mpr hc]

/-- C10 witness at a concrete input. -/
theorem claim_C10_witness :
    init 1 false 1 true = mkPool 1 ∧
    init 1 true 0 true = mkPool 0 ∧
    (0 < 1 → (New 1 true (mkPool 1)).1 = some ⟨0, 0⟩ ∧
             (New 1 true (mkPool 1)).2.slab_count = 1) :=
  claim_C10_prealloc_never_fails 1 1 true (by decide)

/-- A pool operation issued by callers: an acquire (with the given
host-allocator outcome), or a release of the `i`-th currently live cell
(callers may only release cells they hold). -/
inductive Op where
  | acquire (hostOk : Bool)
  | release (i : Nat)
deriving DecidableEq, Repr

/-- One caller-visible step: the pair is (cells currently held by callers,
pool state).  An acquire that succeeds hands the cell to the caller; a
release of a held cell runs `ReturnToFreeList` as `operator delete` does. -/
def step (c : Nat) (s : List Cell × PoolState) (op : Op) : List Cell × PoolState :=
  match op with
  | .acquire hostOk =>
      match Allocate c hostOk s.2 with
      | (some cell, st2) => (cell :: s.1, st2)
      | (none, st2) => (s.1, st2)
  | .release i =>
      match s.1[i]? with
      | some cell => (s.1.eraseIdx i, ReturnToFreeList s.2 cell)
      | none => s

/-- Run a sequence of operations from a fresh pool with ceiling `m`. -/
def run (c m : Nat) (ops : List Op) : List Cell × PoolState :=
  ops.foldl (step c) ([], mkPool m)

/-- Sum `Σ slab.alloc_count` over the slab list, as the destructor's loop
computes it (slab_allocator.h:346-350). -/
def SlabSum (st : PoolState) : Nat := (st.slab_list.map Slab.alloc_count).sum

/-- The conservation invariant of a pool together with the callers' live
cells. -/
def Inv (c : Nat) (live : List Cell) (st : PoolState) : Prop :=
  live.length + st.free_list.length = SlabSum st ∧
  st.free_list_size = st.free_list.length ∧
  (∀ s ∈ st.slab_list, s.alloc_count ≤ c) ∧
  st.slab_list.length = st.slab_count ∧
  st.slab_count ≤ st.max_slabs

/-- Helper: `Allocate` preserves the invariant, counting a returned cell
as live. -/
theorem Inv_Allocate (c : Nat) (b : Bool) (live : List Cell) (st : PoolState)
    (hc : 0 < c) (h : Inv c live st) :
    Inv c ((Allocate c b st).1.elim live (· :: live)) (Allocate c b st).2 := by
  rw [Allocate_eq_acquireSpec c b st hc]
  obtain ⟨fl, sl, ms, sc, fls, nid⟩ := st
  obtain ⟨h1, h2, h3, h4, h5⟩ := h
  simp only [Inv, SlabSum] at h1 h2 h3 h4 h5 ⊢
  try dsimp only at h1 h2 h3 h4 h5
  cases fl with
  | cons cell rest =>
      refine ⟨?_, ?_, ?_, ?_, ?_⟩ <;>
        simp only [acquireSpec, Option.elim] <;> try assumption
      · simp only [List.length_cons] at h1 ⊢
        omega
      · simp only [List.length_cons] at h2 ⊢
        omega
  | nil =>
    cases sl with
    | nil =>
      by_cases hcond : sc < ms ∧ b = true
      · refine ⟨?_, ?_, ?_, ?_, ?_⟩ <;>
          simp only [acquireSpec, acquireSpecStep3] <;>
            rw [if_pos hcond] <;> (try dsimp only [Option.elim])
        · simp only [List.length_cons, List.map_cons, List.map_nil, List.sum_cons,
                     List.sum_nil] at h1 ⊢
          omega
        · exact h2
        · intro s hs
          simp only [List.mem_cons, List.not_mem_nil, or_false] at hs
          subst hs
          exact hc
        · simp only [List.length_cons] at h4 ⊢
          omega
        · omega
      · refine ⟨?_, ?_, ?_, ?_, ?_⟩ <;>
          simp only [acquireSpec, acquireSpecStep3] <;>
            rw [if_neg hcond] <;> (try dsimp only [Option.elim]) <;> assumption
    | cons active rest =>
      by_cases hfull : active.alloc_count < c
      · refine ⟨?_, ?_, ?_, ?_, ?_⟩ <;>
          simp only [acquireSpec] <;>
            rw [if_pos hfull] <;> (try dsimp only [Option.elim])
        · simp only [List.length_cons, List.map_cons, List.sum_cons] at h1 ⊢
          omega
        · exact h2
        · intro s hs
          simp only [List.mem_cons] at hs
          rcases hs with hs | hs
          · subst hs
            exact hfull
          · exact h3 s (List.mem_cons_of_mem _ hs)
        · simpa using h4
        · exact h5
      · by_cases hcond : sc < ms ∧ b = true
        · refine ⟨?_, ?_, ?_, ?_, ?_⟩ <;>
            simp only [acquireSpec, acquireSpecStep3] <;>
              rw [if_neg hfull, if_pos hcond] <;> (try dsimp only [Option.elim])
          · simp only [List.length_cons, List.map_cons, List.sum_cons] at h1 ⊢
            omega
          · exact h2
          · intro s hs
            simp only [List.mem_cons] at hs
            rcases hs with hs | hs | hs
            · subst hs
              exact hc
            · subst hs
              exact h3 _ (List.mem_cons_self _ _)
            · exact h3 s (List.mem_cons_of_mem _ hs)
          · simp only [List.length_cons] at h4 ⊢
            omega
          · omega
        · refine ⟨?_, ?_, ?_, ?_, ?_⟩ <;>
            simp only [acquireSpec, acquireSpecStep3] <;>
              rw [if_neg hfull, if_neg hcond] <;> (try dsimp only [Option.elim]) <;>
                assumption

/-- Helper: a single `step` preserves the invariant. -/
theorem Inv_step (c : Nat) (s : List Cell × PoolState) (op : Op) (hc : 0 < c)
    (h : Inv c s.1 s.2) : Inv c (step c s op).1 (step c s op).2 := by
  cases op with
  | acquire b =>
      have hA := Inv_Allocate c b s.1 s.2 hc h
      rcases hEq : Allocate c b s.2 with ⟨res, st2⟩
      rw [hEq] at hA
      cases res <;> simp_all [step]
  | release i =>
      rcases hL : s.1[i]? with _ | cell
      · simpa [step, hL] using h
      · have hlt : i < s.1.length := (List.getElem?_eq_some_iff.mp hL).1
        obtain ⟨h1, h2, h3, h4, h5⟩ := h
        refine ⟨?_, ?_, ?_, ?_, ?_⟩ <;>
          simp_all [step, hL, ReturnToFreeList, Inv, SlabSum,
                    List.length_eraseIdx_of_lt hlt]
        omega

/-- Helper: every state reached by a run from a fresh pool satisfies the
invariant. -/
theorem Inv_run (c m : Nat) (ops : List Op) (hc : 0 < c) :
    Inv c (run c m ops).1 (run c m ops).2 := by
  suffices h : ∀ s : List Cell × PoolState, Inv c s.1 s.2 →
      Inv c (ops.foldl (step c) s).1 (ops.foldl (step c) s).2 by
    exact h ([], mkPool m) (by simp [Inv, mkPool, SlabSum])
  induction ops with
  | nil =>
      intro s hs
      simpa using hs
  | cons op rest ih =>
      intro s hs
      simpa [List.foldl_cons] using ih (step c s op) (Inv_step c s op hc hs)

/-- The destructor's summation loop (slab_allocator.h:344-350): pop each
slab off the slab list and accumulate its `alloc_count()`. -/
def destructorAllocatedCount : List Slab → Nat
  | [] => 0
  | s :: rest => s.alloc_count + destructorAllocatedCount rest

/-- Helper: the destructor's loop computes `SlabSum`. -/
theorem destructorAllocatedCount_eq (l : List Slab) :
    destructorAllocatedCount l = (l.map Slab.alloc_count).sum := by
  induction l with
  | nil => rfl
  | cons s rest ih => simp [destructorAllocatedCount, ih]

/-- C3: after any sequence of acquires and releases from a fresh pool,
(cells held by callers) + (free-list length) = `Σ alloc_count` over the
slab list, that sum is at most `slab_count × cells_per_slab`, and
`slab_count` is at most `max_slabs`.  `0 < c` is the source's
static_assert `SlabAllocationCount > 0`. -/
theorem claim_C3_conservation (c m : Nat) (ops : List Op) (hc : 0 < c) :
    (run c m ops).1.length + (run c m ops).2.free_list.length
        = SlabSum (run c m ops).2 ∧
    SlabSum (run c m ops).2 ≤ (run c m ops).2.slab_count * c ∧
    (run c m ops).2.slab_count ≤ (run c m ops).2.max_slabs := by
  obtain ⟨h1, h2, h3, h4, h5⟩ := Inv_run c m ops hc
  refine ⟨h1, ?_, h5⟩
  have hmem : ∀ x ∈ (run c m ops).2.slab_list.map Slab.alloc_count, x ≤ c := by
    intro x hx
    obtain ⟨s, hs, rfl⟩ := List.mem_map.mp hx
    exact h3 s hs
  have hsum := List.sum_le_card_nsmul _ c hmem
  simpa [SlabSum, smul_eq_mul, List.length_map, h4] using hsum

/-- C3 witness at a concrete input. -/
theorem claim_C3_witness :
    (run 1 1 [Op.acquire true]).1.length
        + (run 1 1 [Op.acquire true]).2.free_list.length
        = SlabSum (run 1 1 [Op.acquire true]).2 ∧
    SlabSum (run 1 1 [Op.acquire true]).2
        ≤ (run 1 1 [Op.acquire true]).2.slab_count * 1 ∧
    (run 1 1 [Op.acquire true]).2.slab_count
        ≤ (run 1 1 [Op.acquire true]).2.max_slabs :=
  claim_C3_conservation 1 1 [Op.acquire true] (by decide)

/-- C7: at pool destruction, the destructor's loop sums `alloc_count` over
every slab; the debug assertion `free_list_size_ == allocated_count` holds
iff every cell ever dispensed has been released back to the pool — a pool
destroyed while some dispensed cell is still live fails the assertion.
`0 < c` is the source's static_assert `SlabAllocationCount > 0`. -/
theorem claim_C7_leak_assert (c m : Nat) (ops : List Op) (hc : 0 < c) :
    ((run c m ops).2.free_list_size
        = destructorAllocatedCount (run c m ops).2.slab_list)
      ↔ (run c m ops).1 = [] := by
  obtain ⟨h1, h2, _, _, _⟩ := Inv_run c m ops hc
  rw [destructorAllocatedCount_eq]
  unfold SlabSum at h1
  constructor
  · intro hEq
    refine List.length_eq_zero.mp ?_
    omega
  · intro hEq
    rw [hEq] at h1
    simp only [List.length_nil, Nat.zero_add] at h1
    omega

/-- C7 witness: one un-released acquire fails the assertion; releasing it
satisfies the assertion. -/
theorem claim_C7_witness :
    (((run 1 1 [Op.acquire true]).2.free_list_size
        = destructorAllocatedCount (run 1 1 [Op.acquire true]).2.slab_list)
      ↔ (run 1 1 [Op.acquire true]).1 = []) :=
  claim_C7_leak_assert 1 1 [Op.acquire true] (by decide)

/-- Helper: an acquire immediately after a release pops exactly the
released cell and restores the previous state. -/
theorem Allocate_ReturnToFreeList (c : Nat) (b : Bool) (st : PoolState) (cell : Cell) :
    Allocate c b (ReturnToFreeList st cell) = (some cell, st) := by
  simp [Allocate, ReturnToFreeList]

/-- C4: releasing a cell and immediately acquiring yields exactly that
cell, and restores the pool state: `ReturnToFreeList` pushes at the free
list head and `Allocate` pops from the head (LIFO). -/
theorem claim_C4_lifo_reuse (c : Nat) (b : Bool) (st : PoolState) (cell : Cell) :
    Allocate c b (ReturnToFreeList st cell) = (some cell, st) :=
  Allocate_ReturnToFreeList c b st cell

/-- List of `q` exhausted slabs, most recently created first: slab ids
`q-1, …, 0`, each with `alloc_count = c`. -/
def fullSlabsDown (c : Nat) : Nat → List Slab
  | 0 => []
  | q + 1 => { id := q, alloc_count := c } :: fullSlabsDown c q

/-- The pool state reached from a fresh pool by `q * c + r` successful
acquires and no release: an active slab `q` with bump index `r` on top of
`q` exhausted slabs. -/
def midState (m c q r : Nat) : PoolState :=
  { free_list := [],
    slab_list := { id := q, alloc_count := r } :: fullSlabsDown c q,
    max_slabs := m, slab_count := q + 1, free_list_size := 0,
    next_slab_id := q + 1 }

/-- Helper: bump-path acquire on a non-full active slab (independent of
the host allocator). -/
theorem Allocate_midState_bump (m c q r : Nat) (b : Bool) (hr : r < c) :
    Allocate c b (midState m c q r) = (some ⟨q, r⟩, midState m c q (r + 1)) := by
  simp [Allocate, midState, Slab.Allocate, Nat.not_le.mpr hr]

/-- Helper: new-slab acquire when the active slab is full and the ceiling
allows. -/
theorem Allocate_midState_newslab (m c q : Nat) (hc : 0 < c) (hq : q + 1 < m) :
    Allocate c true (midState m c q c)
      = (some ⟨q + 1, 0⟩, midState m c (q + 1) 1) := by
  simp [Allocate, midState, Slab.Allocate, tryNewSlab, fullSlabsDown, hq,
        Nat.not_le.mpr hc]

/-- Helper: the very first acquire on a fresh pool creates slab 0. -/
theorem Allocate_mkPool_first (m c : Nat) (hc : 0 < c) (hm : 0 < m) :
    Allocate c true (mkPool m) = (some ⟨0, 0⟩, midState m c 0 1) := by
  simp [Allocate, mkPool, midState, Slab.Allocate, tryNewSlab, fullSlabsDown, hm,
        Nat.not_le.mpr hc]

/-- Helper: with the active slab full and the ceiling reached, acquire
fails and the state is untouched. -/
theorem Allocate_midState_exhausted (m c q : Nat) (b : Bool) (hq : q + 1 = m) :
    Allocate c b (midState m c q c) = (none, midState m c q c) := by
  simp [Allocate, midState, Slab.Allocate, tryNewSlab, hq]

/-- Helper: the state after `n` acquires (no release) from a fresh pool,
for `1 ≤ n ≤ m * c`, is `midState m c q r` where `n = q * c + r`,
`1 ≤ r ≤ c`, `q < m`. -/
theorem iterFrom_fresh_char (c m : Nat) (hc : 0 < c) :
    ∀ n, 1 ≤ n → n ≤ m * c →
      ∃ q r, n = q * c + r ∧ 1 ≤ r ∧ r ≤ c ∧ q < m ∧
        iterFrom c true (mkPool m) n = midState m c q r := by
  intro n
  induction n with
  | zero => intro h; omega
  | succ n ih =>
    intro _ hle
    rcases Nat.eq_zero_or_pos n with h0 | hpos
    · subst h0
      have hm : 0 < m := by
        rcases Nat.eq_zero_or_pos m with hm0 | hm0
        · subst hm0; simp at hle
        · exact hm0
      refine ⟨0, 1, by omega, le_refl 1, hc, hm, ?_⟩
      simp [iterFrom, Allocate_mkPool_first m c hc hm]
    · obtain ⟨q, r, hn, hr1, hrc, hqm, hst⟩ :=
        ih hpos (le_trans (Nat.le_succ n) hle)
      by_cases hlt : r < c
      · refine ⟨q, r + 1, by omega, by omega, hlt, hqm, ?_⟩
        simp [iterFrom, hst, Allocate_midState_bump m c q r true hlt]
      · have hr : r = c := le_antisymm hrc (Nat.not_lt.mp hlt)
        rw [hr] at hn hst
        have hq1 : q + 1 < m := by
          have h1 : (q + 1) * c < m * c := by
            calc (q + 1) * c = q * c + c := by ring
            _ = n := hn.symm
            _ < n + 1 := Nat.lt_succ_self n
            _ ≤ m * c := hle
          exact lt_of_mul_lt_mul_right h1 (Nat.zero_le c)
        refine ⟨q + 1, 1, by rw [hn]; ring, le_refl 1, hc, hq1, ?_⟩
        simp [iterFrom, hst, Allocate_midState_newslab m c q hc hq1]

/-- C2: from a fresh pool with ceiling `m` and no pre-allocation, the
first `m * c` acquires (no intervening release) all succeed, the next
acquire returns null, and after a single release of any dispensed cell the
next acquire succeeds (returning that cell).  `0 < c` is the source's
static_assert `SlabAllocationCount > 0`. -/
theorem claim_C2_exhaustion_threshold (c m : Nat) (hc : 0 < c) :
    (∀ j, j < m * c → (Allocate c true (iterFrom c true (mkPool m) j)).1 ≠ none) ∧
    (Allocate c true (iterFrom c true (mkPool m) (m * c))).1 = none ∧
    (∀ cell,
      (Allocate c true
        (ReturnToFreeList (iterFrom c true (mkPool m) (m * c)) cell)).1
        = some cell) := by
  refine ⟨?_, ?_, ?_⟩
  · intro j hj
    rcases Nat.eq_zero_or_pos j with h0 | hpos
    · subst h0
      have hm : 0 < m := by
        rcases Nat.eq_zero_or_pos m with hm0 | hm0
        · subst hm0; simp at hj
        · exact hm0
      simp [iterFrom, Allocate_mkPool_first m c hc hm]
    · obtain ⟨q, r, hn, hr1, hrc, hqm, hst⟩ :=
        iterFrom_fresh_char c m hc j hpos (le_of_lt hj)
      by_cases hlt : r < c
      · simp [hst, Allocate_midState_bump m c q r true hlt]
      · have hr : r = c := le_antisymm hrc (Nat.not_lt.mp hlt)
        rw [hr] at hn hst
        have hq1 : q + 1 < m := by
          have h1 : (q + 1) * c < m * c := by
            calc (q + 1) * c = q * c + c := by ring
            _ = j := hn.symm
            _ < m * c := hj
          exact lt_of_mul_lt_mul_right h1 (Nat.zero_le c)
        simp [hst, Allocate_midState_newslab m c q hc hq1]
  · rcases Nat.eq_zero_or_pos m with hm0 | hm0
    · subst hm0
      simp [iterFrom, Allocate_mkPool_zero]
    · have hmc : 1 ≤ m * c := Nat.mul_pos hm0 hc
      obtain ⟨q, r, hn, hr1, hrc, hqm, hst⟩ :=
        iterFrom_fresh_char c m hc (m * c) hmc (le_refl _)
      have hle1 : (q + 1) * c ≤ m * c := Nat.mul_le_mul_right c hqm
      have h3 : (q + 1) * c = q * c + c := by ring
      have he : q * c + r = (q + 1) * c := by omega
      have hr : r = c := by omega
      have hqm2 : q + 1 = m := by
        have h4 : (q + 1) * c = m * c := by omega
        exact Nat.eq_of_mul_eq_mul_right hc h4
      rw [hr] at hst
      rw [hst, Allocate_midState_exhausted m c q true hqm2]
  · intro cell
    rw [Allocate_ReturnToFreeList]

/-- C2 witness at a concrete input (`m = 1`, `c = 1`). -/
theorem claim_C2_witness :
    (∀ j, j < 1 * 1 → (Allocate 1 true (iterFrom 1 true (mkPool 1) j)).1 ≠ none) ∧
    (Allocate 1 true (iterFrom 1 true (mkPool 1) (1 * 1))).1 = none ∧
    (∀ cell,
      (Allocate 1 true
        (ReturnToFreeList (iterFrom 1 true (mkPool 1) (1 * 1)) cell)).1
        = some cell) :=
  claim_C2_exhaustion_threshold 1 1 (by decide)

/-- Helper: the constructor with `alloc_initial = true` and a working host
allocator acquires the first cell of slab 0 and immediately releases it. -/
theorem init_prealloc (c m : Nat) (hc : 0 < c) (hm : 0 < m) :
    init c true m true = ReturnToFreeList (midState m c 0 1) ⟨0, 0⟩ := by
  simp [init, Allocate_mkPool_first m c hc hm]

/-- Helper: after the pre-allocating constructor (`max_slabs = 1`), the
state after `j` host-free acquires (`1 ≤ j ≤ c`) is `midState 1 c 0 j`. -/
theorem iterFrom_prealloc_char (c : Nat) (hc : 0 < c) :
    ∀ j, 1 ≤ j → j ≤ c →
      iterFrom c false (init c true 1 true) j = midState 1 c 0 j := by
  intro j
  induction j with
  | zero => intro h; omega
  | succ j ih =>
    intro _ hle
    rcases Nat.eq_zero_or_pos j with h0 | hpos
    · subst h0
      simp [iterFrom, init_prealloc c 1 hc Nat.one_pos, Allocate_ReturnToFreeList]
    · have hj : iterFrom c false (init c true 1 true) j = midState 1 c 0 j :=
        ih hpos (le_trans (Nat.le_succ j) hle)
      have hjc : j < c := lt_of_lt_of_le (Nat.lt_succ_self j) hle
      simp [iterFrom, hj, Allocate_midState_bump 1 c 0 j false hjc]

/-- C6: with `pre_allocate = true` (and a working host allocator), the
constructor pre-acquires one cell and immediately releases it to the free
list — the pool comes up with exactly that cell on the free list and the
first slab already created — and, combined with `max_slabs = 1`, the next
`c` acquires all succeed even when the host allocator would fail (it is
never consulted).  `0 < c` is the source's static_assert. -/
theorem claim_C6_preallocation (c m : Nat) (hc : 0 < c) (hm : 0 < m) :
    (init c true m true).free_list = [⟨0, 0⟩] ∧
    (init c true m true).slab_count = 1 ∧
    (∀ j, j < c →
      (Allocate c false (iterFrom c false (init c true 1 true) j)).1 ≠ none) := by
  refine ⟨?_, ?_, ?_⟩
  · rw [init_prealloc c m hc hm]
    rfl
  · rw [init_prealloc c m hc hm]
    rfl
  · intro j hjc
    rcases Nat.eq_zero_or_pos j with h0 | hpos
    · subst h0
      simp [iterFrom, init_prealloc c 1 hc Nat.one_pos, Allocate_ReturnToFreeList]
    · rw [iterFrom_prealloc_char c hc j hpos (le_of_lt hjc),
          Allocate_midState_bump 1 c 0 j false hjc]
      simp

/-- C6 witness at a concrete input. -/
theorem claim_C6_witness :
    (init 1 true 1 true).free_list = [⟨0, 0⟩] ∧
    (init 1 true 1 true).slab_count = 1 ∧
    (∀ j, j < 1 →
      (Allocate 1 false (iterFrom 1 false (init 1 true 1 true) j)).1 ≠ none) :=
  claim_C6_preallocation 1 1 (by decide) (by decide)

/-- Pools are identified by their address; a world maps each pool address
to its state (instanced allocators may coexist,
slab_allocator.h:535-581). -/
abbrev PoolId := Nat

/-- The states of all instanced pools of one configured type. -/
abbrev World := PoolId → PoolState

/-- A constructed object: the cell it occupies and its `slab_origin_`
field (null right after `new (mem) ObjType(...)`,
slab_allocator.h:580). -/
structure Obj where
  cell : Cell
  slab_origin : Option PoolId
deriving DecidableEq, Repr

/-- Embeds `internal::SlabOriginSetter::SetOrigin`, instanced flavor
(slab_allocator.h:296-303): write the allocator's address into the
object's `slab_origin_`. -/
def SetOrigin (p : PoolId) (o : Obj) : Obj := { o with slab_origin := some p }

/-- Embeds `internal::SlabOriginSetter::SetOrigin`, static-allocator
specialization (slab_allocator.h:305-310): a no-op. -/
def SetOriginStatic (o : Obj) : Obj := o

/-- Embeds `internal::SlabAllocator::New` on an instanced pool `p` of a world
(slab_allocator.h:361-374): allocate a cell from `p`, construct the object
in it (fresh `slab_origin_ = nullptr`), then `SetOrigin` records `p`. -/
def NewInstanced (c : Nat) (b : Bool) (w : World) (p : PoolId) :
    Option Obj × World :=
  match Allocate c b (w p) with
  | (none, st2) => (none, fun q => if q = p then st2 else w q)
  | (some cell, st2) =>
      (some (SetOrigin p { cell := cell, slab_origin := none }),
       fun q => if q = p then st2 else w q)

/-- Embeds `SlabAllocated::operator delete`, instanced flavor
(slab_allocator.h:565-576): read the object's `slab_origin_` and call that
pool's `ReturnToFreeList` on the cell.  (The source DEBUG_ASSERTs the
origin is non-null; a null origin is modelled as no change.) -/
def deleteInstanced (w : World) (o : Obj) : World :=
  match o.slab_origin with
  | some p => fun q => if q = p then ReturnToFreeList (w q) o.cell else w q
  | none => w

/-- Embeds `SlabAllocated::operator delete`, static flavor
(slab_allocator.h:646-650): route to the single per-type pool
`allocator_`. -/
def deleteStatic (staticPool : PoolState) (o : Obj) : PoolState :=
  ReturnToFreeList staticPool o.cell

/-- C5: on an instanced pool, every object `New` dispenses has its
`slab_origin_` set to the allocating pool `p`; deleting it pushes its cell
on `p`'s free list and leaves every other pool untouched.  On static
pools, `SetOrigin` is a no-op and delete routes to the unique per-type
pool. -/
theorem claim_C5_origin_routing (c : Nat) (b : Bool) (w : World) (p : PoolId)
    (o : Obj) (h : (NewInstanced c b w p).1 = some o) :
    o.slab_origin = some p ∧
    deleteInstanced (NewInstanced c b w p).2 o p
        = ReturnToFreeList ((NewInstanced c b w p).2 p) o.cell ∧
    (∀ q, q ≠ p →
      deleteInstanced (NewInstanced c b w p).2 o q = (NewInstanced c b w p).2 q) ∧
    (∀ ob : Obj, SetOriginStatic ob = ob) ∧
    (∀ st : PoolState, deleteStatic st o = ReturnToFreeList st o.cell) := by
  rcases hA : Allocate c b (w p) with ⟨res, st2⟩
  cases res with
  | none => simp [NewInstanced, hA] at h
  | some cell =>
    have ho : o = SetOrigin p { cell := cell, slab_origin := none } := by
      simpa [NewInstanced, hA] using h.symm
    subst ho
    refine ⟨rfl, ?_, ?_, fun ob => rfl, fun st => rfl⟩
    · simp [deleteInstanced, SetOrigin, NewInstanced, hA]
    · intro q hq
      simp [deleteInstanced, SetOrigin, NewInstanced, hA, hq]

/-- C5 witness at a concrete input. -/
theorem claim_C5_witness :
    (NewInstanced 1 true (fun _ => mkPool 1) 0).1 = some ⟨⟨0, 0⟩, some 0⟩ ∧
    (⟨⟨0, 0⟩, some 0⟩ : Obj).slab_origin = some 0 :=
  ⟨by decide,
   (claim_C5_origin_routing 1 true (fun _ => mkPool 1) 0 ⟨⟨0, 0⟩, some 0⟩
      (by decide)).1⟩

end SlabAlloc
